import Mathlib

set_option maxHeartbeats 1000000

attribute [local semireducible] Rat.add Rat.mul Rat.inv

/- Verification of the Deal-Finder Estately scraping pipeline
   (backend/estately/scraper.py, backend/estately/parsing.py,
   backend/estately/filters.py) against its natural-language
   specification.  Python strings are modelled as `List Char`, Python
   floats as `ℚ`, Python dicts as association lists, and Python code
   that can raise as `Except Unit`. -/

/-- Convert a string literal to the character-list representation used throughout. -/
def kstr (s : String) : List Char := s.data

/-- Python `\s` whitespace characters, as used by `str.strip()`. -/
def pyWs (c : Char) : Bool :=
  c == ' ' || c == '\t' || c == '\n' || c == '\r' || c == Char.ofNat 11 || c == Char.ofNat 12

/-- Python `str.lower()` (ASCII-relevant part). -/
def lowerL (s : List Char) : List Char := s.map Char.toLower

/-- Python `str.strip()`: drop leading and trailing whitespace. -/
def stripL (s : List Char) : List Char :=
  ((s.dropWhile pyWs).reverse.dropWhile pyWs).reverse

/-- `startsWithL h n = true` iff `n` is a prefix of `h`. -/
def startsWithL : List Char → List Char → Bool
  | _, [] => true
  | [], _ :: _ => false
  | a :: as, b :: bs => a == b && startsWithL as bs

/-- Python substring test `n in h` for strings. -/
def containsL : List Char → List Char → Bool
  | [], needle => needle.isEmpty
  | a :: t, needle => startsWithL (a :: t) needle || containsL t needle

/-- Value of a string of decimal digits. -/
def digitsVal (ds : List Char) : Nat :=
  ds.foldl (fun a c => a * 10 + (c.toNat - '0'.toNat)) 0

/-- Value of the fractional digits `ds` after a decimal point. -/
def fracVal (ds : List Char) : ℚ :=
  (digitsVal ds : ℚ) / ((10 : ℚ) ^ ds.length)

/-- Python `float(s)` on a string containing only digits and dots
    (the shape produced by the scraper's regex cleaning): succeeds iff
    there is at most one dot and at least one digit. -/
def pyFloatOfClean (s : List Char) : Option ℚ :=
  if s.count '.' ≤ 1 ∧ s.any (·.isDigit) then
    let intDs := s.takeWhile (·.isDigit)
    let rest := s.dropWhile (·.isDigit)
    let fracDs := match rest with
      | '.' :: r => r
      | _ => []
    some ((digitsVal intDs : ℚ) + fracVal fracDs)
  else none

/-- Python `float(s)` on an arbitrary string: strip whitespace, allow an
    optional sign, then a plain decimal literal.  (Exponent and inf/nan
    forms, which the scraper never produces, are not modelled.) -/
def pyFloatGen (s : List Char) : Option ℚ :=
  let t := stripL s
  match t with
  | '-' :: r => if r.all (fun c => c.isDigit || c == '.') then (pyFloatOfClean r).map (fun q => -q) else none
  | '+' :: r => if r.all (fun c => c.isDigit || c == '.') then pyFloatOfClean r else none
  | _ => if t.all (fun c => c.isDigit || c == '.') then pyFloatOfClean t else none

/-- A scalar Python/JSON value as stored in the candidate dicts the
    scraper manipulates (`None`, bool, number, string). -/
inductive PVal where
  | null : PVal
  | b : Bool → PVal
  | num : ℚ → PVal
  | str : List Char → PVal
deriving DecidableEq

/-- Python truthiness of a scalar value. -/
def truthyP : PVal → Bool
  | .null => false
  | .b bv => bv
  | .num q => decide (q ≠ 0)
  | .str s => !s.isEmpty

/-- `_coerce_float` (scraper.py:486-496): `None` stays unknown; ints,
    floats (and bools, which satisfy `isinstance(x, (int, float))`) pass
    through `float`; strings are stripped down to digits and dots and
    parsed, any failure giving `None`. -/
def coerce_float : PVal → Option ℚ
  | .null => none
  | .b bv => some (if bv then 1 else 0)
  | .num q => some q
  | .str s =>
    let s2 := s.filter (fun c => c.isDigit || c == '.')
    if s2.isEmpty then none else pyFloatOfClean s2

/-- `_passes_min` (scraper.py:507-515): a value that does not coerce to
    a number passes the minimum; otherwise compare. -/
def passes_min (val : PVal) (minimum : ℚ) : Bool :=
  match coerce_float val with
  | none => true
  | some v => decide (minimum ≤ v)

/-- View an optional float (a dict entry that is either absent/None or a
    parsed number) as the scalar value handed to `_coerce_float`. -/
def optV : Option ℚ → PVal
  | none => .null
  | some q => .num q

/-- Python `x or 0` on an optional float (`data.get("price") or 0`). -/
def orZ : Option ℚ → ℚ
  | none => 0
  | some q => q

/-- The strict minimum gate used in `collect_estately`'s DOM-card loops
    (scraper.py:1338-1343 and scraper.py:1253-1258):
    `(data.get(f) or 0) < minimum` drops the candidate. -/
def dom_min_gate (p b s : Option ℚ) (minP minB minS : ℚ) : Bool :=
  if orZ p < minP then false
  else if orZ b < minB then false
  else if orZ s < minS then false
  else true

/-- `_first_price` (parsing.py:148-166), modelling its search regex:
    the match starts at the first digit, takes the maximal run of digits
    and commas, an optional dot-fraction, and, after optional whitespace,
    an optional k/m/b scale suffix; commas are removed before parsing. -/
def firstPriceFrom (cs : List Char) : Option ℚ :=
  let intRun := cs.takeWhile (fun c => c.isDigit || c == ',')
  let rest := cs.dropWhile (fun c => c.isDigit || c == ',')
  let intDs := intRun.filter (·.isDigit)
  let fracStep : List Char × List Char :=
    match rest with
    | '.' :: r =>
      if (r.takeWhile (·.isDigit)).isEmpty then ([], rest)
      else (r.takeWhile (·.isDigit), r.dropWhile (·.isDigit))
    | _ => ([], rest)
  let base : ℚ := (digitsVal intDs : ℚ) + fracVal fracStep.1
  let sufRest := fracStep.2.dropWhile pyWs
  match sufRest with
  | c :: _ =>
    if c == 'k' || c == 'K' then some (base * 1000)
    else if c == 'm' || c == 'M' then some (base * 1000000)
    else if c == 'b' || c == 'B' then some (base * 1000000000)
    else some base
  | [] => some base

/-- `_first_price` entry point: `None` when the string holds no digit. -/
def first_price (s : List Char) : Option ℚ :=
  match s.dropWhile (fun c => !c.isDigit) with
  | [] => none
  | cs => firstPriceFrom cs

/-- Decidable equality for `Except` results, so concrete runs can be
    checked by `decide`. -/
instance exceptDecEq {ε α : Type} [DecidableEq ε] [DecidableEq α] :
    DecidableEq (Except ε α) := fun a b =>
  match a, b with
  | .ok x, .ok y =>
    if h : x = y then .isTrue (by rw [h]) else .isFalse (fun hc => h (Except.ok.inj hc))
  | .error x, .error y =>
    if h : x = y then .isTrue (by rw [h]) else .isFalse (fun hc => h (Except.error.inj hc))
  | .ok _, .error _ => .isFalse (fun hc => Except.noConfusion hc)
  | .error _, .ok _ => .isFalse (fun hc => Except.noConfusion hc)

/-- A Python dict with scalar values, as an association list. -/
abbrev PyDict := List (List Char × PVal)

/-- `d.get(k)`: first binding of `k`, `none` when the key is absent. -/
def getP : PyDict → List Char → Option PVal
  | [], _ => none
  | (k, v) :: t, key => if k = key then some v else getP t key

/-- `d.get(k)` as a Python value: an absent key yields `None`. -/
def getPv (d : PyDict) (k : List Char) : PVal := (getP d k).getD .null

/-- Python `str(v)` for the scalar values the status helpers see.
    Numbers render to their digits (exact for integers; a non-integer
    renders its numerator and denominator digits, which, like Python's
    float formatting, contains no letters and hence no status token). -/
def pyStrOfP : PVal → List Char
  | .str s => s
  | .b true => kstr "True"
  | .b false => kstr "False"
  | .null => kstr "None"
  | .num q =>
    (if q.num < 0 then ['-'] else []) ++ Nat.toDigits 10 q.num.natAbs
      ++ (if q.den = 1 then [] else '.' :: Nat.toDigits 10 q.den)

/-- Negative status tokens `NEG_STATUS` (scraper.py:350). -/
def NEG_STATUS : List (List Char) :=
  [kstr "pending", kstr "sold", kstr "contingent", kstr "off market", kstr "off-market",
   kstr "closed", kstr "withdrawn", kstr "canceled", kstr "leased", kstr "rented",
   kstr "temporarily off market"]

/-- Positive status tokens `POS_STATUS_TOKENS` (scraper.py:351). -/
def POS_STATUS_TOKENS : List (List Char) :=
  [kstr "for sale", kstr "active", kstr "active listing", kstr "on market", kstr "on-market"]

/-- The status synonym keys scanned by `_extract_status` (scraper.py:355-357). -/
def statusFieldKeys : List (List Char) :=
  [kstr "status", kstr "listingStatus", kstr "propertyStatus", kstr "marketStatus",
   kstr "statusText", kstr "saleType", kstr "listing_type", kstr "onMarket",
   kstr "isActive", kstr "forSale"]

/-- The `for k in status_fields: if k in d and d[k] is not None: raw = d[k]; break`
    scan of `_extract_status`, over an arbitrary key list. -/
def statusRawAux (d : PyDict) : List (List Char) → Option PVal
  | [] => none
  | k :: ks =>
    match getP d k with
    | some v => if v = PVal.null then statusRawAux d ks else some v
    | none => statusRawAux d ks

/-- The raw status value selected by `_extract_status`. -/
def statusRaw (d : PyDict) : Option PVal := statusRawAux d statusFieldKeys

/-- `_extract_status` (scraper.py:353-376): returns the normalized status
    text and the is-active flag.  A boolean raw value is authoritative;
    otherwise negative tokens beat positive tokens, and no token at all
    defaults to active. -/
def extract_status (d : PyDict) (text : List Char) : Option (List Char) × Bool :=
  let raw := statusRaw d
  let s := match raw with
    | some v => lowerL (stripL (pyStrOfP v))
    | none => []
  let blob := stripL (s ++ [' '] ++ lowerL text)
  let isActive := match raw with
    | some (.b bv) => bv
    | _ =>
      if NEG_STATUS.any (fun tok => containsL blob tok) then false
      else if POS_STATUS_TOKENS.any (fun tok => containsL blob tok) then true
      else true
  (if s.isEmpty then none else some s, isActive)

/-- `ACTIVE_TOKENS` (scraper.py:518-520). -/
def ACTIVE_TOKENS : List (List Char) :=
  [kstr "active", kstr "for_sale", kstr "for sale", kstr "active-listing",
   kstr "on_market", kstr "on market"]

/-- `INACTIVE_TOKENS` (scraper.py:521-524). -/
def INACTIVE_TOKENS : List (List Char) :=
  [kstr "pending", kstr "under contract", kstr "contingent", kstr "off_market",
   kstr "sold", kstr "coming soon", kstr "withdrawn", kstr "canceled", kstr "expired"]

/-- The status synonym keys scanned by `_looks_active_for_sale` (scraper.py:530-533). -/
def lafStatusFields : List (List Char) :=
  [kstr "status", kstr "listingStatus", kstr "sale_status", kstr "marketStatus",
   kstr "availability", kstr "listing_status", kstr "mlsStatus",
   kstr "property_status", kstr "propStatus"]

/-- The `for f in status_fields: v = d.get(f); if v: val = ...; break` scan of
    `_looks_active_for_sale` (only truthy values are taken). -/
def lafValAux (d : PyDict) : List (List Char) → Option (List Char)
  | [] => none
  | f :: fs =>
    match getP d f with
    | some v => if truthyP v then some (lowerL (stripL (pyStrOfP v))) else lafValAux d fs
    | none => lafValAux d fs

/-- `_looks_active_for_sale` (scraper.py:526-548): no status value at all,
    or an unrecognized token, defaults to active. -/
def looks_active_for_sale (d : PyDict) : Bool :=
  match lafValAux d lafStatusFields with
  | none => true
  | some val =>
    if INACTIVE_TOKENS.any (fun tok => containsL val tok) then false
    else if ACTIVE_TOKENS.any (fun tok => containsL val tok) then true
    else true

/-- `DISTRESSED_KEYWORDS` (scraper.py:313). -/
def DISTRESSED_KEYWORDS : List (List Char) :=
  [kstr "foreclosure", kstr "pre-foreclosure", kstr "auction", kstr "bank owned",
   kstr "reo", kstr "short sale", kstr "fixer", kstr "distressed"]

/-- `looks_distressed` (scraper.py:893-895). -/
def looks_distressed (text : List Char) : Bool :=
  DISTRESSED_KEYWORDS.any (fun k => containsL (lowerL text) k)

/-- `has_no_hoa` (scraper.py:897-899). -/
def has_no_hoa (text : List Char) : Bool :=
  !(containsL (lowerL text) (kstr "hoa"))

/-- A candidate listing dict (`RawCandidate`): the fixed field set carried
    by the dicts that `parse_card` and `_extract_listings_from_json_blob`
    build, with `_card_text` when attached. -/
structure Cand where
  address : Option (List Char) := none
  city : Option (List Char) := none
  state : Option (List Char) := none
  zip : Option (List Char) := none
  price : Option ℚ := none
  beds : Option ℚ := none
  baths : Option ℚ := none
  sqft : Option ℚ := none
  href : Option (List Char) := none
  cardText : List Char := []
deriving DecidableEq

/-- An optional string field as a Python value. -/
def optS : Option (List Char) → PVal
  | none => .null
  | some s => .str s

/-- The candidate as the dict handed to `_extract_status`: exactly the nine
    listing keys, so none of the status synonym keys is ever present. -/
def candToDict (d : Cand) : PyDict :=
  [(kstr "address", optS d.address), (kstr "city", optS d.city),
   (kstr "state", optS d.state), (kstr "zip", optS d.zip),
   (kstr "price", optV d.price), (kstr "beds", optV d.beds),
   (kstr "baths", optV d.baths), (kstr "sqft", optV d.sqft),
   (kstr "href", optS d.href)]

/-- `_has_min_address` (scraper.py:498-505): a non-empty stripped address,
    or both a city and a state. -/
def has_min_address (d : Cand) : Bool :=
  let addr := stripL (d.address.getD [])
  let city := stripL (d.city.getD [])
  let st := stripL (d.state.getD [])
  !addr.isEmpty || (!city.isEmpty && !st.isEmpty)

/-- The dedup identity key `(d.get("address") or "", d.get("price") or 0)`. -/
def keyOf (d : Cand) : List Char × ℚ := (d.address.getD [], orZ d.price)

/-- The `PropertyCard` record appended to `results` (py_models/property.py). -/
structure PCard where
  address : List Char
  city : Option (List Char)
  state : Option (List Char)
  zip : Option (List Char)
  listing_price : Option ℚ
  beds : Option ℚ
  baths : Option ℚ
  sqft : Option ℚ
  source_url : List Char
deriving DecidableEq

/-- Build the emitted `PropertyCard` from a candidate:
    `address or ""` and `href or url` follow Python truthiness. -/
def mkPCard (d : Cand) (pageUrl : List Char) : PCard :=
  { address := d.address.getD []
  , city := d.city, state := d.state, zip := d.zip
  , listing_price := d.price, beds := d.beds, baths := d.baths, sqft := d.sqft
  , source_url :=
      match d.href with
      | some h => if h.isEmpty then pageUrl else h
      | none => pageUrl }

/-- Identity key of an emitted record. -/
def pcKey (p : PCard) : List Char × ℚ := (p.address, orZ p.listing_price)

/-- The common emit loop shape of `collect_estately` and `_collect_http_only`:
    each candidate passes its gate, then the `seen` set is consulted
    (`if key in seen: continue; seen.add(key)`) and the record emitted.
    In the browser path of `collect_estately` one such `seen` set is shared
    by the network, inline and DOM strategy loops across all pages
    (scraper.py:912, 1141-1144, 1192-1195, 1355-1358, 1424-1427). -/
def shared_seen_loop (keep : Cand → Bool) (pageUrl : List Char) :
    List Cand → List (List Char × ℚ) → List PCard
  | [], _ => []
  | d :: rest, seen =>
    if keep d = false then shared_seen_loop keep pageUrl rest seen
    else if keyOf d ∈ seen then shared_seen_loop keep pageUrl rest seen
    else mkPCard d pageUrl :: shared_seen_loop keep pageUrl rest (keyOf d :: seen)

/-- The per-candidate gate of `_collect_http_only`'s inline-harvest loop
    (scraper.py:174-192): `_passes_min` on price/beds/sqft,
    `_has_min_address`, and the `_extract_status` active flag. -/
def http_inline_keep (minP minB minS : ℚ) (d : Cand) : Bool :=
  passes_min (optV d.price) minP && passes_min (optV d.beds) minB &&
    passes_min (optV d.sqft) minS && has_min_address d &&
    (extract_status (candToDict d) d.cardText).2

/-- The inline-harvest half of `_collect_http_only` (scraper.py:173-206):
    note its `seen_local` set starts empty on every call. -/
def collect_http_inline (minP minB minS : ℚ) (u : List Char)
    (cands : List Cand) (seen : List (List Char × ℚ)) : List PCard :=
  shared_seen_loop (http_inline_keep minP minB minS) u cands seen

/-- Split a URL at the `://` scheme marker. -/
def splitMarker : List Char → Option (List Char × List Char)
  | [] => none
  | ':' :: '/' :: '/' :: rest => some ([':', '/', '/'], rest)
  | c :: rest => (splitMarker rest).map (fun p => (c :: p.1, p.2))

/-- Scheme-plus-host part of a URL. -/
def originOf (u : List Char) : List Char :=
  match splitMarker u with
  | some (pre, rest) => pre ++ rest.takeWhile (fun c => c ≠ '/')
  | none => u

/-- `make_absolute` (scraper.py:48-51), i.e. `urljoin`, modelled for the
    href shapes the scraper produces: absolute URLs pass through and
    root-relative paths are joined to the base origin. -/
def make_absolute (base href : List Char) : List Char :=
  if startsWithL href (kstr "http") then href
  else if startsWithL href ['/'] then originOf base ++ href
  else base ++ href

/-- `data.update(detail_data)` after `_harvest_from_detail` (scraper.py:244-247):
    the detail dict carries the full listing field set, with its `href`
    defaulted to the detail URL (the candidate's own href). -/
def mergeDetailCand (old dd : Cand) : Cand :=
  { dd with cardText := old.cardText,
            href := some (dd.href.getD (old.href.getD [])) }

/-- Pre-gate enrichment of a DOM card candidate (scraper.py:239-249):
    absolutize the href, and when the address floor fails but an href
    exists, merge in a detail-page harvest. -/
def enrichCand (pageUrl : List Char) (detail : List Char → Option Cand) (c0 : Cand) : Cand :=
  let c1 :=
    match c0.href with
    | some h => if h.isEmpty then c0 else { c0 with href := some (make_absolute pageUrl h) }
    | none => c0
  if has_min_address c1 = false ∧ (c1.href.getD []).isEmpty = false then
    match detail (c1.href.getD []) with
    | some dd => mergeDetailCand c1 dd
    | none => c1
  else c1

/-- The per-candidate gate of `_collect_http_only`'s DOM loop
    (scraper.py:251-271): `_passes_min` on price/beds/sqft,
    `_has_min_address`, the HOA and distressed text filters, and the
    `_extract_status` active flag with the card text. -/
def http_dom_keep (minP minB minS : ℚ) (reqDis reqNoHoa : Bool) (d : Cand) : Bool :=
  passes_min (optV d.price) minP && passes_min (optV d.beds) minB &&
    passes_min (optV d.sqft) minS && has_min_address d &&
    (!reqNoHoa || has_no_hoa d.cardText) && (!reqDis || looks_distressed d.cardText) &&
    (extract_status (candToDict d) d.cardText).2

/-- The DOM half of `_collect_http_only` (scraper.py:208-294): its
    `seen_dom` set also starts empty, independent of `seen_local`. -/
def collect_http_dom (minP minB minS : ℚ) (reqDis reqNoHoa : Bool) (u : List Char)
    (detail : List Char → Option Cand) (cards : List Cand)
    (seen : List (List Char × ℚ)) : List PCard :=
  shared_seen_loop (http_dom_keep minP minB minS reqDis reqNoHoa) u
    (cards.map (enrichCand u detail)) seen

/-- `_collect_http_only` (scraper.py:145-311): inline harvest with a fresh
    `seen_local`, then DOM harvest with a fresh `seen_dom`; the two result
    lists are concatenated into `results_out`. -/
def collect_http_only (minP minB minS : ℚ) (reqDis reqNoHoa : Bool) (u : List Char)
    (detail : List Char → Option Cand) (inlineCands domCards : List Cand) : List PCard :=
  collect_http_inline minP minB minS u inlineCands []
    ++ collect_http_dom minP minB minS reqDis reqNoHoa u detail domCards []

/-- Python `x or y` over scalar values: truthy `x` wins, otherwise `y`
    (the last operand of a chain is returned even when falsy). -/
def pyOr2 (x y : PVal) : PVal := if truthyP x then x else y

/-- The cents-style key set of `_price_from_any` (scraper.py:616). -/
def centsKeySet : List (List Char) :=
  [kstr "listPriceCents", kstr "priceCents", kstr "list_price_cents", kstr "price_cents"]

/-- The `raw = d.get("listPrice") or d.get("price") or ...` selection chain
    of `_price_from_any` (scraper.py:602-606). -/
def rawPriceSel (d : PyDict) : PVal :=
  pyOr2 (getPv d (kstr "listPrice"))
    (pyOr2 (getPv d (kstr "price"))
      (pyOr2 (getPv d (kstr "displayPrice"))
        (pyOr2 (getPv d (kstr "list_price"))
          (pyOr2 (getPv d (kstr "listPriceCents"))
            (pyOr2 (getPv d (kstr "priceCents"))
              (pyOr2 (getPv d (kstr "list_price_cents"))
                (getPv d (kstr "price_cents"))))))))

/-- Python `float(x)` on a scalar value; raises (`.error`) on `None` and
    on unparseable strings. -/
def pyFloatP : PVal → Except Unit ℚ
  | .null => .error ()
  | .b bv => .ok (if bv then 1 else 0)
  | .num q => .ok q
  | .str s =>
    match pyFloatGen s with
    | some q => .ok q
    | none => .error ()

/-- The `for k in cents_keys: if k in d and d[k] == raw` test of
    `_price_from_any` (scraper.py:617-618). -/
def centsEcho (d : PyDict) (raw : PVal) : Bool :=
  centsKeySet.any (fun k => decide (getP d k = some raw))

/-- `_price_from_any` (scraper.py:600-620), on a flat scalar-valued dict.
    The `0 < raw < 100000` test at scraper.py:610-613 is inert (its body is
    `pass`); the division by 100 happens whenever any cents key holds a
    value equal to the selected raw value, whichever key raw came from. -/
def price_from_any (d : PyDict) : Except Unit (Option ℚ) :=
  match rawPriceSel d with
  | .null => .ok none
  | raw =>
    if centsEcho d raw then (pyFloatP raw).map (fun q => some (q / 100))
    else .ok (coerce_float raw)

/-- The price computation of `_extract_estately_map_properties`
    (scraper.py:702-712): the `0 < price < 100000` branch merely recasts to
    float; a numeric (or boolean) `list_price_cents`/`price_cents` entry
    then unconditionally overrides with value/100, else `_coerce_float`. -/
def map_properties_price (it : PyDict) : Option ℚ :=
  let price0 :=
    pyOr2 (getPv it (kstr "list_price"))
      (pyOr2 (getPv it (kstr "price"))
        (pyOr2 (getPv it (kstr "list_price_cents")) (getPv it (kstr "price_cents"))))
  match getP it (kstr "list_price_cents") with
  | some (.num q) => some (q / 100)
  | some (.b bv) => some ((if bv then 1 else 0) / 100)
  | _ =>
    match getP it (kstr "price_cents") with
    | some (.num q) => some (q / 100)
    | some (.b bv) => some ((if bv then 1 else 0) / 100)
    | _ => coerce_float price0

/-- The two externally visible fetch actions of the per-target ladder. -/
inductive FetchAct where
  | goto : FetchAct
  | httpHarvest : FetchAct
deriving DecidableEq

/-- The per-target page loop of `collect_estately` (scraper.py:971-1045,
    1384-1399), abstracted to its fetch actions: each iteration attempts
    `page.goto`; on success the harvests run and the loop advances only
    when a next link exists; on a navigation failure the handler fetches
    the page over plain HTTP, harvests, and returns — it never loops back. -/
def collectTrace (navOk hasNext : Nat → Bool) : Nat → Nat → List FetchAct
  | 0, _ => []
  | n + 1, idx =>
    if navOk idx then
      if hasNext idx then FetchAct.goto :: collectTrace navOk hasNext n (idx + 1)
      else [FetchAct.goto]
    else [FetchAct.goto, FetchAct.httpHarvest]

/-- No browser navigation ever appears after an HTTP fallback harvest. -/
def noGotoAfterHttp : List FetchAct → Bool
  | [] => true
  | FetchAct.goto :: t => noGotoAfterHttp t
  | FetchAct.httpHarvest :: t => !t.contains FetchAct.goto && noGotoAfterHttp t

/-- A JSON-LD value: the tree-shaped values `_jsonld_from_card` can hand
    to `parse_card`'s backfill block. -/
inductive LdVal where
  | null : LdVal
  | b : Bool → LdVal
  | num : ℚ → LdVal
  | str : List Char → LdVal
  | arr : List LdVal → LdVal
  | obj : List (List Char × LdVal) → LdVal

/-- A JSON-LD object as an association list. -/
abbrev LdObj := List (List Char × LdVal)

/-- `o.get(k)` on a JSON-LD object. -/
def getLd : LdObj → List Char → Option LdVal
  | [], _ => none
  | (k, v) :: t, key => if k = key then some v else getLd t key

/-- Python truthiness of a JSON-LD value. -/
def truthyLd : LdVal → Bool
  | .null => false
  | .b bv => bv
  | .num q => decide (q ≠ 0)
  | .str s => !s.isEmpty
  | .arr a => !a.isEmpty
  | .obj o => !o.isEmpty

/-- `float(str(v).replace(",", ""))` with failures swallowed, as inside
    `_qv_value` (parsing.py:101-114): numbers round-trip, strings are
    parsed after comma removal, everything else fails to `None`. -/
def qvScalar : LdVal → Option ℚ
  | .num q => some q
  | .str s => pyFloatGen (s.filter (fun c => c ≠ ','))
  | _ => none

/-- `_qv_value` (parsing.py:101-114): read through an optional
    QuantitativeValue wrapper (a dict with a `value` entry), `None` for a
    missing or `None` input. -/
def qv_value : Option LdVal → Option ℚ
  | none => none
  | some (.obj o) =>
    match getLd o (kstr "value") with
    | none => none
    | some .null => none
    | some v => qvScalar v
  | some .null => none
  | some v => qvScalar v

/-- The row shape of `parse_card`'s `out` dict: address-like fields hold
    whatever value was stored (the DOM phase stores strings), numeric
    fields hold parsed floats, plus the `_weak` marker. -/
structure CardOut where
  address : Option LdVal := none
  city : Option LdVal := none
  state : Option LdVal := none
  zip : Option LdVal := none
  price : Option ℚ := none
  beds : Option ℚ := none
  baths : Option ℚ := none
  sqft : Option ℚ := none
  href : Option LdVal := none
  weak : Bool := false

/-- The address read of the backfill (parsing.py:429): the `address`
    entry when it is a dict, the empty-dict default when absent; a present
    non-dict address value (string, number, list, bool or None) is what
    the subsequent `.get(...)` attribute lookups run on, which raises. -/
def addrObjOf (l : LdObj) : Except Unit LdObj :=
  match getLd l (kstr "address") with
  | some (.obj o) => .ok o
  | some _ => .error ()
  | none => .ok []

/-- The address merge of the backfill (parsing.py:435-436): a truthy
    JSON-LD street replaces a falsy DOM address, and replaces a truthy DOM
    address only when not already contained in it as a substring; the
    Python `in` test raises unless both sides are strings. -/
def newAddress (cur : Option LdVal) (street : Option LdVal) : Except Unit (Option LdVal) :=
  match street with
  | none => .ok cur
  | some sv =>
    if truthyLd sv then
      match cur with
      | some av =>
        if truthyLd av then
          match sv, av with
          | .str s, .str a => .ok (if containsL a s then some (.str a) else some (.str s))
          | _, _ => .error ()
        else .ok (some sv)
      | none => .ok (some sv)
    else .ok cur

/-- `if x: out[f] = out.get(f) or x` for the city/state/zip backfill
    (parsing.py:437-442). -/
def backOpt (cur : Option LdVal) (v : Option LdVal) : Option LdVal :=
  match v with
  | some vv =>
    if truthyLd vv then
      match cur with
      | some c => if truthyLd c then some c else some vv
      | none => some vv
    else cur
  | none => cur

/-- The URL backfill (parsing.py:444-448): only when the current href is
    falsy and the JSON-LD `url` is a string. -/
def hrefBack (cur : Option LdVal) (l : LdObj) : Option LdVal :=
  if (match cur with | some c => truthyLd c | none => false) then cur
  else
    match getLd l (kstr "url") with
    | some (.str u) => some (.str (make_absolute (kstr "https://www.estately.com/") u))
    | _ => cur

/-- The sqft backfill (parsing.py:455-459): `_qv_value(floorSize)`, and on
    failure a second read through `floorSize.get("value")` when floorSize
    is a dict. -/
def sqftBack (l : LdObj) : Option ℚ :=
  let fs := getLd l (kstr "floorSize")
  match qv_value fs with
  | some q => some q
  | none =>
    match fs with
    | some (.obj o) => qv_value (getLd o (kstr "value"))
    | _ => none

/-- The offers walk of the price backfill (parsing.py:462-468): a dict
    offers yields its `price`; a non-empty list offers reads
    `offers[0].get("price")` and raises when the first element is not a
    dict; anything else yields `None`. -/
def offersPrice (l : LdObj) : Except Unit (Option LdVal) :=
  match getLd l (kstr "offers") with
  | some (.obj o) => .ok (getLd o (kstr "price"))
  | some (.arr (h :: _)) =>
    match h with
    | .obj o => .ok (getLd o (kstr "price"))
    | _ => .error ()
  | _ => .ok none

/-- The price backfill (parsing.py:461-471), run only when the DOM price
    is unknown: `out["price"] = _qv_value(price_ld) or out.get("price")`,
    where the current price is `None`, so a falsy zero collapses to `None`. -/
def ldPrice (cur : Option ℚ) (l : LdObj) : Except Unit (Option ℚ) :=
  match cur with
  | some q => .ok (some q)
  | none =>
    (offersPrice l).map fun pl =>
      let pl2 := match pl with
        | some v => some v
        | none => getLd l (kstr "price")
      match qv_value pl2 with
      | some q => if q = 0 then none else some q
      | none => none

/-- The JSON-LD backfill block of `parse_card` (parsing.py:425-471),
    applied to the row `out` produced by the DOM phase and the merged
    JSON-LD object returned by `_jsonld_from_card` (`none` when absent;
    an empty dict is falsy and also skips the block). -/
def parse_card_ld_backfill (out : CardOut) (ld : Option LdObj) : Except Unit CardOut :=
  match ld with
  | none => .ok out
  | some l =>
    if l.isEmpty then .ok out
    else
      match addrObjOf l with
      | .error e => .error e
      | .ok addr =>
        match newAddress out.address (getLd addr (kstr "streetAddress")) with
        | .error e => .error e
        | .ok a2 =>
          match ldPrice out.price l with
          | .error e => .error e
          | .ok p2 =>
            .ok { address := a2
                , city := backOpt out.city (getLd addr (kstr "addressLocality"))
                , state := backOpt out.state (getLd addr (kstr "addressRegion"))
                , zip := backOpt out.zip (getLd addr (kstr "postalCode"))
                , price := p2
                , beds :=
                    match out.beds with
                    | some q => some q
                    | none => qv_value (getLd l (kstr "numberOfRooms"))
                , baths :=
                    match out.baths with
                    | some q => some q
                    | none => qv_value (getLd l (kstr "numberOfBathroomsTotal"))
                , sqft :=
                    match out.sqft with
                    | some q => some q
                    | none => sqftBack l
                , href := hrefBack out.href l
                , weak := out.weak }

/-- Truthiness of an optional stored value (`row.get(f)`). -/
def truthyOptLd : Option LdVal → Bool
  | none => false
  | some v => truthyLd v

/-- Truthiness of an optional float (`row.get("price")`): zero is falsy. -/
def truthyOptQ : Option ℚ → Bool
  | none => false
  | some q => decide (q ≠ 0)

/-- `should_keep` (parsing.py:291-304): requires a truthy address, a
    truthy price or href, and no `_weak` marker.  (An empty row fails the
    address test exactly as `if not row` would.) -/
def should_keep (row : CardOut) : Bool :=
  truthyOptLd row.address && (truthyOptQ row.price || truthyOptLd row.href) && !row.weak

/-- Python `s.split(sep)` for a single-character separator (keeps empty
    pieces, `[""]` on the empty string). -/
def splitOnCh (sep : Char) : List Char → List (List Char)
  | [] => [[]]
  | c :: t =>
    if c = sep then [] :: splitOnCh sep t
    else
      match splitOnCh sep t with
      | h :: r => (c :: h) :: r
      | [] => [[c]]

/-- Python `s.split()` with no argument: split on whitespace runs,
    dropping empty pieces. -/
def wordsL : List Char → List (List Char)
  | [] => []
  | c :: t =>
    if pyWs c then wordsL t
    else
      match wordsL t with
      | [] => [[c]]
      | h :: r =>
        match t with
        | [] => [[c]]
        | c2 :: _ => if pyWs c2 then [c] :: h :: r else (c :: h) :: r

/-- `_slug` (filters.py:5-7): lowercase, split on whitespace, join with
    dashes. -/
def slugL (s : List Char) : List Char :=
  List.intercalate ['-'] (wordsL (lowerL (stripL s)))

/-- `STATE_TO_ABBR` (filters.py:29-46). -/
def STATE_TO_ABBR : List (List Char × List Char) :=
  [(kstr "alabama", kstr "al"), (kstr "alaska", kstr "ak"), (kstr "arizona", kstr "az"),
   (kstr "arkansas", kstr "ar"), (kstr "california", kstr "ca"), (kstr "colorado", kstr "co"),
   (kstr "connecticut", kstr "ct"), (kstr "delaware", kstr "de"), (kstr "florida", kstr "fl"),
   (kstr "georgia", kstr "ga"), (kstr "hawaii", kstr "hi"), (kstr "idaho", kstr "id"),
   (kstr "illinois", kstr "il"), (kstr "indiana", kstr "in"), (kstr "iowa", kstr "ia"),
   (kstr "kansas", kstr "ks"), (kstr "kentucky", kstr "ky"), (kstr "louisiana", kstr "la"),
   (kstr "maine", kstr "me"), (kstr "maryland", kstr "md"), (kstr "massachusetts", kstr "ma"),
   (kstr "michigan", kstr "mi"), (kstr "minnesota", kstr "mn"), (kstr "mississippi", kstr "ms"),
   (kstr "missouri", kstr "mo"), (kstr "montana", kstr "mt"), (kstr "nebraska", kstr "ne"),
   (kstr "nevada", kstr "nv"), (kstr "new hampshire", kstr "nh"), (kstr "new jersey", kstr "nj"),
   (kstr "new mexico", kstr "nm"), (kstr "new york", kstr "ny"), (kstr "north carolina", kstr "nc"),
   (kstr "north dakota", kstr "nd"), (kstr "ohio", kstr "oh"), (kstr "oklahoma", kstr "ok"),
   (kstr "oregon", kstr "or"), (kstr "pennsylvania", kstr "pa"), (kstr "rhode island", kstr "ri"),
   (kstr "south carolina", kstr "sc"), (kstr "south dakota", kstr "sd"), (kstr "tennessee", kstr "tn"),
   (kstr "texas", kstr "tx"), (kstr "utah", kstr "ut"), (kstr "vermont", kstr "vt"),
   (kstr "virginia", kstr "va"), (kstr "washington", kstr "wa"), (kstr "west virginia", kstr "wv"),
   (kstr "wisconsin", kstr "wi"), (kstr "wyoming", kstr "wy"),
   (kstr "district of columbia", kstr "dc"), (kstr "washington dc", kstr "dc"), (kstr "dc", kstr "dc")]

/-- Lookup in the state table. -/
def stateLookup : List (List Char × List Char) → List Char → Option (List Char)
  | [], _ => none
  | (k, v) :: t, key => if k = key then some v else stateLookup t key

/-- `parse_market` (filters.py:10-52): split on the comma into exactly two
    stripped parts; slug the city; a two-character state passes lowered,
    otherwise the full name is looked up; errors are `ValueError`s. -/
def parse_market (market : List Char) : Except (List Char) (List Char × List Char) :=
  let parts := (splitOnCh ',' market).map stripL
  match parts with
  | [cityRaw, stateRaw] =>
    let city := slugL cityRaw
    if stateRaw.length = 2 then .ok (lowerL stateRaw, city)
    else
      match stateLookup STATE_TO_ABBR (lowerL stateRaw) with
      | some st => .ok (st, city)
      | none => .error (kstr "Unrecognized state")
  | _ => .error (kstr "Expected City, ST")

/-- Decimal digits of an integer, as Python `str(i)`. -/
def intDigits (i : Int) : List Char :=
  (if i < 0 then ['-'] else []) ++ Nat.toDigits 10 i.natAbs

/-- The query parameter list assembled by `build_search_url`
    (filters.py:73-86), in dict insertion order: the six unconditional
    parameters, then `max_price` when truthy, `hoa=no` when `no_hoa`, and
    the distressed keyword list when `distressed`. -/
def buildSearchParams (minPrice : Int) (maxPrice : Option Int) (minBeds minSqft : Int)
    (noHoa distressed : Bool) (propertyType sortArg : List Char) :
    List (List Char × List Char) :=
  [(kstr "min_price", intDigits minPrice),
   (kstr "min_beds", intDigits minBeds),
   (kstr "min_sqft", intDigits minSqft),
   (kstr "property_type", propertyType),
   (kstr "status", kstr "active"),
   (kstr "sort", sortArg)]
  ++ (match maxPrice with
      | some v => if v ≠ 0 then [(kstr "max_price", intDigits v)] else []
      | none => [])
  ++ (if noHoa then [(kstr "hoa", kstr "no")] else [])
  ++ (if distressed then [(kstr "keywords", kstr "fixer,foreclosure,short+sale,reo,distressed")] else [])

/-- `urllib.parse.quote_plus` on the characters these parameters contain:
    alphanumerics and `_.-~` pass, a space becomes `+`, anything else is
    percent-encoded. -/
def quotePlusCh (c : Char) : List Char :=
  if c.isAlphanum || c == '_' || c == '.' || c == '-' || c == '~' then [c]
  else if c == ' ' then ['+']
  else
    let n := c.toNat
    let hex := fun (k : Nat) => (Nat.toDigits 16 k).map Char.toUpper
    '%' :: (if n < 16 then '0' :: hex n else hex n)

/-- `urllib.parse.urlencode`: `k=v` pairs joined with ampersands. -/
def urlencodeL (params : List (List Char × List Char)) : List Char :=
  List.intercalate ['&']
    (params.map fun p => (p.1.flatMap quotePlusCh) ++ '=' :: (p.2.flatMap quotePlusCh))

/-- `build_search_url` (filters.py:55-91): base path from the parsed
    market, then `?` and the encoded parameters. -/
def build_search_url (market : List Char) (minPrice : Int) (maxPrice : Option Int)
    (minBeds minSqft : Int) (noHoa distressed : Bool)
    (propertyType sortArg : List Char) : Except (List Char) (List Char) :=
  match parse_market market with
  | .error e => .error e
  | .ok (st, city) =>
    .ok ((kstr "https://www.estately.com/") ++ st ++ ['/'] ++ city ++ ['?']
      ++ urlencodeL (buildSearchParams minPrice maxPrice minBeds minSqft noHoa distressed propertyType sortArg))

/-- Concrete candidate: city and state but no street address (the shape
    `_extract_listings_from_json_blob` produces for a node whose address
    object carries only city/state). -/
def c2cand : Cand :=
  { city := some (kstr "Phoenix"), state := some (kstr "AZ"), price := some 700000 }

/-- Concrete candidate with a full identity key. -/
def c3cand : Cand := { address := some (kstr "123 Main St"), price := some 700000 }

/-- A concrete search URL used as the page url in concrete runs. -/
def urlPhx : List Char := kstr "https://www.estately.com/az/phoenix"

/-- A JSON-LD object whose `address` entry is a plain string, as emitted
    by many schema.org publishers. -/
def ld4obj : LdObj :=
  [(kstr "@type", LdVal.str (kstr "SingleFamilyResidence")),
   (kstr "address", LdVal.str (kstr "123 Main St"))]

/-- A DOM-phase row with a parsed address, price and beds=3. -/
def out6 : CardOut :=
  { address := some (LdVal.str (kstr "456 Oak Ave")), price := some 700000, beds := some 3 }

/-- A JSON-LD object claiming beds=4 and baths=2 for the same card. -/
def ld6 : LdObj :=
  [(kstr "@type", LdVal.str (kstr "SingleFamilyResidence")),
   (kstr "numberOfRooms", LdVal.num 4),
   (kstr "numberOfBathroomsTotal", LdVal.num 2)]

/-- The merge of `out6` with `ld6`: beds keeps the DOM value 3, baths is
    backfilled to 2. -/
def merged6 : CardOut :=
  { address := some (LdVal.str (kstr "456 Oak Ave")), price := some 700000,
    beds := some 3, baths := some 2 }

theorem startsWithL_iff (n : List Char) : ∀ h : List Char, startsWithL h n = true ↔ n <+: h := by
  induction n with
  | nil => intro h; cases h <;> simp [startsWithL, List.nil_prefix]
  | cons b bs ih =>
    intro h
    cases h with
    | nil => simp [startsWithL]
    | cons a as =>
      simp only [startsWithL, Bool.and_eq_true, beq_iff_eq, List.cons_prefix_cons, ih as]
      constructor
      · rintro ⟨h1, h2⟩; exact ⟨h1.symm, h2⟩
      · rintro ⟨h1, h2⟩; exact ⟨h1.symm, h2⟩

theorem containsL_iff (n : List Char) : ∀ h : List Char, containsL h n = true ↔ n <:+: h := by
  intro h
  induction h with
  | nil =>
    simp [containsL, List.isEmpty_iff]
  | cons a t ih =>
    simp only [containsL, Bool.or_eq_true, startsWithL_iff, ih, List.infix_cons_iff]

theorem stripL_infix_self (l : List Char) : stripL l <:+: l := by
  unfold stripL
  have h1 : l.dropWhile pyWs <:+ l := List.dropWhile_suffix pyWs
  have h2 : ((l.dropWhile pyWs).reverse.dropWhile pyWs).reverse <+: l.dropWhile pyWs := by
    have h3 : (l.dropWhile pyWs).reverse.dropWhile pyWs <:+ (l.dropWhile pyWs).reverse :=
      List.dropWhile_suffix pyWs
    have h4 := List.reverse_prefix.mpr h3
    rwa [List.reverse_reverse] at h4
  exact h2.isInfix.trans h1.isInfix

theorem stripL_space_cons (t : List Char) : stripL (' ' :: t) = stripL t := by
  simp [stripL, List.dropWhile_cons, pyWs]

theorem statusRawAux_none (d : PyDict) :
    ∀ ks : List (List Char), (∀ k ∈ ks, getP d k = none) → statusRawAux d ks = none := by
  intro ks
  induction ks with
  | nil => intro _; rfl
  | cons k ks ih =>
    intro h
    have hk : getP d k = none := h k (List.mem_cons_self k ks)
    simp [statusRawAux, hk]
    exact ih fun k2 hk2 => h k2 (List.mem_cons_of_mem k hk2)

theorem lafValAux_none (d : PyDict) :
    ∀ ks : List (List Char), (∀ k ∈ ks, getP d k = none) → lafValAux d ks = none := by
  intro ks
  induction ks with
  | nil => intro _; rfl
  | cons k ks ih =>
    intro h
    have hk : getP d k = none := h k (List.mem_cons_self k ks)
    simp [lafValAux, hk]
    exact ih fun k2 hk2 => h k2 (List.mem_cons_of_mem k hk2)

theorem pcKey_mkPCard (d : Cand) (u : List Char) : pcKey (mkPCard d u) = keyOf d := rfl

theorem shared_seen_loop_sound (keep : Cand → Bool) (u : List Char) :
    ∀ (cands : List Cand) (seen : List (List Char × ℚ)) (p : PCard),
      p ∈ shared_seen_loop keep u cands seen →
      ∃ d, d ∈ cands ∧ keep d = true ∧ p = mkPCard d u := by
  intro cands
  induction cands with
  | nil => intro seen p hp; simp [shared_seen_loop] at hp
  | cons d rest ih =>
    intro seen p hp
    unfold shared_seen_loop at hp
    by_cases hk : keep d = false
    · rw [if_pos hk] at hp
      obtain ⟨d2, hd2, hkeep, hpe⟩ := ih seen p hp
      exact ⟨d2, List.mem_cons_of_mem d hd2, hkeep, hpe⟩
    · rw [if_neg hk] at hp
      by_cases hm : keyOf d ∈ seen
      · rw [if_pos hm] at hp
        obtain ⟨d2, hd2, hkeep, hpe⟩ := ih seen p hp
        exact ⟨d2, List.mem_cons_of_mem d hd2, hkeep, hpe⟩
      · rw [if_neg hm] at hp
        cases hp with
        | head => exact ⟨d, List.mem_cons_self d rest, Bool.not_eq_false _ |>.mp hk, rfl⟩
        | tail _ hp2 =>
          obtain ⟨d2, hd2, hkeep, hpe⟩ := ih _ p hp2
          exact ⟨d2, List.mem_cons_of_mem d hd2, hkeep, hpe⟩

theorem shared_seen_loop_keys (keep : Cand → Bool) (u : List Char) :
    ∀ (cands : List Cand) (seen : List (List Char × ℚ)),
      ((shared_seen_loop keep u cands seen).map pcKey).Nodup
      ∧ ∀ k ∈ (shared_seen_loop keep u cands seen).map pcKey, k ∉ seen := by
  intro cands
  induction cands with
  | nil => intro seen; simp [shared_seen_loop]
  | cons d rest ih =>
    intro seen
    unfold shared_seen_loop
    by_cases hk : keep d = false
    · rw [if_pos hk]; exact ih seen
    · rw [if_neg hk]
      by_cases hm : keyOf d ∈ seen
      · rw [if_pos hm]; exact ih seen
      · rw [if_neg hm]
        obtain ⟨hnd, hfresh⟩ := ih (keyOf d :: seen)
        constructor
        · simp only [List.map_cons, List.nodup_cons, pcKey_mkPCard]
          refine ⟨fun hmem => ?_, hnd⟩
          exact hfresh _ hmem (List.mem_cons_self _ _)
        · intro k hkmem
          simp only [List.map_cons, List.mem_cons, pcKey_mkPCard] at hkmem
          cases hkmem with
          | inl he => rw [he]; exact hm
          | inr hmem => intro hks; exact hfresh k hmem (List.mem_cons_of_mem _ hks)

/-- C1: `_passes_min` itself keeps a missing or unparseable value (and its
    coercion is total, never raising), but the claim's "at every filtering
    point" fails: the DOM-card filtering points of `collect_estately`
    (scraper.py:1338-1343, 1253-1258) compare `(data.get(f) or 0) < minimum`,
    so a candidate with a missing price is dropped at the default minimum
    price of 600000, contradicting the stated policy. -/
theorem c1_missing_value_dropped_at_dom_gate :
    passes_min PVal.null 600000 = true
    ∧ passes_min (PVal.str (kstr "TBD")) 600000 = true
    ∧ coerce_float (PVal.str (kstr "TBD")) = none
    ∧ dom_min_gate none none none 600000 3 1000 = false := by decide

/-- C2 counterexample: a candidate with no street address but a city/state
    pair and a price passes `_has_min_address` in `_collect_http_only`'s
    inline loop and is emitted as a record whose address is the empty
    string — so a non-empty address is not necessary for emission. -/
theorem c2_counterexample_empty_address_emitted :
    collect_http_inline 600000 3 1000 urlPhx [c2cand] [] = [mkPCard c2cand urlPhx]
    ∧ (mkPCard c2cand urlPhx).address = [] := by decide

/-- C2 (amended): `should_keep` requires a truthy address and a truthy
    price-or-href, and the collection pipeline's gate is `_has_min_address`
    — a non-empty address OR a city/state pair — which is necessary for a
    record to be emitted by the inline HTTP loop. -/
theorem c2_amended_necessary_conditions :
    (∀ row : CardOut, should_keep row = true →
       truthyOptLd row.address = true ∧ (truthyOptQ row.price || truthyOptLd row.href) = true)
    ∧ (∀ (minP minB minS : ℚ) (u : List Char) (cands : List Cand)
         (seen : List (List Char × ℚ)) (p : PCard),
         p ∈ collect_http_inline minP minB minS u cands seen →
         ∃ d, d ∈ cands ∧ has_min_address d = true ∧ p = mkPCard d u) := by
  constructor
  · intro row h
    simp only [should_keep, Bool.and_eq_true] at h
    exact ⟨h.1.1, h.1.2⟩
  · intro minP minB minS u cands seen p hp
    obtain ⟨d, hd, hkeep, hpe⟩ := shared_seen_loop_sound _ u cands seen p hp
    refine ⟨d, hd, ?_, hpe⟩
    simp only [http_inline_keep, Bool.and_eq_true] at hkeep
    exact hkeep.1.2

/-- C2 witness: the amended necessity applied to a concrete one-candidate run. -/
theorem c2_amended_witness :
    ∃ d, d ∈ [c2cand] ∧ has_min_address d = true ∧ mkPCard c2cand urlPhx = mkPCard d urlPhx :=
  c2_amended_necessary_conditions.2 600000 3 1000 urlPhx [c2cand] [] (mkPCard c2cand urlPhx)
    (by decide)

/-- C3 counterexample: `_collect_http_only` keeps separate `seen_local`
    and `seen_dom` sets for its inline and DOM strategies, so the same
    (address, price) identity key harvested by both strategies is emitted
    twice in one call — refuting "at most one record per key across all
    strategies". -/
theorem c3_counterexample_duplicate_key :
    collect_http_only 600000 3 1000 false false urlPhx (fun _ => none) [c3cand] [c3cand]
      = [mkPCard c3cand urlPhx, mkPCard c3cand urlPhx]
    ∧ ¬ (((collect_http_only 600000 3 1000 false false urlPhx (fun _ => none)
            [c3cand] [c3cand]).map pcKey).Nodup) := by
  constructor
  · decide
  · decide

/-- C3 (amended): in the browser path of `collect_estately` a single
    `seen` set is shared by all extractor strategies and all pages; over
    that shared set, at most one record is emitted per identity key, no
    emitted key repeats one already seen, and the first passing candidate
    with a fresh key wins. -/
theorem c3_amended_shared_seen_dedup (keep : Cand → Bool) (u : List Char) :
    (∀ (cands : List Cand) (seen : List (List Char × ℚ)),
       ((shared_seen_loop keep u cands seen).map pcKey).Nodup
       ∧ ∀ k ∈ (shared_seen_loop keep u cands seen).map pcKey, k ∉ seen)
    ∧ (∀ (d : Cand) (rest : List Cand) (seen : List (List Char × ℚ)),
        keep d = true → keyOf d ∉ seen →
        shared_seen_loop keep u (d :: rest) seen
          = mkPCard d u :: shared_seen_loop keep u rest (keyOf d :: seen)) := by
  constructor
  · intro cands seen; exact shared_seen_loop_keys keep u cands seen
  · intro d rest seen hk hm
    conv_lhs => rw [shared_seen_loop]
    rw [if_neg (by simp [hk]), if_neg hm]

/-- C3 witness: the shared-set dedup applied to a concrete first candidate. -/
theorem c3_amended_witness :
    shared_seen_loop (http_inline_keep 600000 3 1000) urlPhx [c3cand] []
      = mkPCard c3cand urlPhx :: shared_seen_loop (http_inline_keep 600000 3 1000) urlPhx [] [keyOf c3cand] :=
  (c3_amended_shared_seen_dedup (http_inline_keep 600000 3 1000) urlPhx).2 c3cand [] []
    (by decide) (by decide)

/-- C4: the extractors are not all non-raising.  `parse_card`'s JSON-LD
    backfill (parsing.py:429) reads `.get("streetAddress")` on whatever a
    string-valued `address` entry holds, raising `AttributeError` instead
    of yielding an empty result — whatever the DOM phase produced. -/
theorem c4_string_address_jsonld_raises :
    parse_card_ld_backfill {} (some ld4obj) = .error ()
    ∧ parse_card_ld_backfill { address := some (LdVal.str (kstr "9 High St")), price := some 1 }
        (some ld4obj) = .error () := ⟨rfl, rfl⟩

/-- C5 counterexample: `_coerce_float` strips the `k` suffix before
    parsing, so coercing the string "2.5k" yields 2.5, not 2500. -/
theorem c5_counterexample_no_k_suffix :
    coerce_float (PVal.str (kstr "2.5k")) = some (5 / 2) ∧ ((5 : ℚ) / 2) ≠ 2500 := by
  constructor
  · decide
  · decide

/-- C5 (amended): coercion is idempotent on numeric input, both coercion
    functions turn "$1,234,000" into 1234000, and the suffix-aware
    `_first_price` turns "2.5k" into 2500 (while `_coerce_float` does not
    recognize the suffix). -/
theorem c5_amended_coercion_values :
    (∀ q : ℚ, coerce_float (PVal.num q) = some q)
    ∧ first_price (kstr "$1,234,000") = some 1234000
    ∧ first_price (kstr "2.5k") = some 2500
    ∧ coerce_float (PVal.str (kstr "$1,234,000")) = some 1234000 := by
  refine ⟨fun q => rfl, by decide, by decide, by decide⟩

/-- C6: whenever `parse_card`'s JSON-LD backfill returns a normalized row,
    the numeric fields price, beds, baths and sqft keep any value the DOM
    phase found; the structured-data value is used only where the DOM
    value was unknown. -/
theorem c6_dom_numeric_fields_win (out : CardOut) (ld : Option LdObj) (merged : CardOut)
    (h : parse_card_ld_backfill out ld = .ok merged) :
    (∀ q, out.price = some q → merged.price = some q)
    ∧ (∀ q, out.beds = some q → merged.beds = some q)
    ∧ (∀ q, out.baths = some q → merged.baths = some q)
    ∧ (∀ q, out.sqft = some q → merged.sqft = some q) := by
  cases ld with
  | none =>
    cases h
    exact ⟨fun _ hq => hq, fun _ hq => hq, fun _ hq => hq, fun _ hq => hq⟩
  | some l =>
    unfold parse_card_ld_backfill at h
    dsimp only at h
    by_cases hl : l.isEmpty = true
    · rw [if_pos hl] at h
      cases h
      exact ⟨fun _ hq => hq, fun _ hq => hq, fun _ hq => hq, fun _ hq => hq⟩
    · rw [if_neg hl] at h
      cases haddr : addrObjOf l with
      | error e => rw [haddr] at h; exact Except.noConfusion h
      | ok addr =>
        rw [haddr] at h
        dsimp only at h
        cases ha2 : newAddress out.address (getLd addr (kstr "streetAddress")) with
        | error e => rw [ha2] at h; exact Except.noConfusion h
        | ok a2 =>
          rw [ha2] at h
          dsimp only at h
          cases hp2 : ldPrice out.price l with
          | error e => rw [hp2] at h; exact Except.noConfusion h
          | ok p2 =>
            rw [hp2] at h
            dsimp only at h
            have hm := Except.ok.inj h
            subst hm
            refine ⟨?_, ?_, ?_, ?_⟩
            · intro q hq
              rw [hq] at hp2
              simp only [ldPrice] at hp2
              cases hp2
              rfl
            · intro q hq; simp [hq]
            · intro q hq; simp [hq]
            · intro q hq; simp [hq]

/-- C6 witness: DOM beds=3 with structured-data beds=4 merges to beds=3,
    while the unknown baths field is backfilled from structured data. -/
theorem c6_witness :
    parse_card_ld_backfill out6 (some ld6) = .ok merged6
    ∧ merged6.beds = some 3
    ∧ merged6.baths = some 2
    ∧ qv_value (getLd ld6 (kstr "numberOfRooms")) = some 4 :=
  ⟨rfl, (c6_dom_numeric_fields_win out6 (some ld6) merged6 rfl).2.1 3 rfl, rfl, rfl⟩

/-- C7: the status classifier `_extract_status` defaults to active — for
    any candidate dict with none of its status keys present and any card
    text containing no negative or positive token, it returns
    is_active = true; a boolean-typed status value is authoritative; and
    `_looks_active_for_sale` likewise defaults to active when none of its
    status keys is present. -/
theorem c7_status_default_active (d : PyDict) (text : List Char) :
    ((∀ k ∈ statusFieldKeys, getP d k = none) →
     (∀ tok ∈ NEG_STATUS ++ POS_STATUS_TOKENS, containsL (lowerL text) tok = false) →
     (extract_status d text).2 = true)
    ∧ (∀ bv v, statusRaw d = some v → v = PVal.b bv → (extract_status d text).2 = bv)
    ∧ ((∀ k ∈ lafStatusFields, getP d k = none) → looks_active_for_sale d = true) := by
  refine ⟨?_, ?_, ?_⟩
  · intro h1 h2
    have hraw : statusRaw d = none := statusRawAux_none d statusFieldKeys h1
    have hblob : ∀ tok ∈ NEG_STATUS ++ POS_STATUS_TOKENS,
        containsL (stripL (' ' :: lowerL text)) tok = false := by
      intro tok htok
      by_contra hc
      have hc2 : containsL (stripL (' ' :: lowerL text)) tok = true := by
        revert hc; cases containsL (stripL (' ' :: lowerL text)) tok <;> simp
      have hinf : tok <:+: stripL (' ' :: lowerL text) := (containsL_iff tok _).mp hc2
      rw [stripL_space_cons] at hinf
      have hinf2 : tok <:+: lowerL text := hinf.trans (stripL_infix_self (lowerL text))
      have hc3 := (containsL_iff tok (lowerL text)).mpr hinf2
      rw [h2 tok htok] at hc3
      exact Bool.noConfusion hc3
    have hneg : (NEG_STATUS.any fun tok => containsL (stripL (' ' :: lowerL text)) tok) = false := by
      rw [List.any_eq_false]
      intro tok htok
      simp [hblob tok (List.mem_append_left _ htok)]
    simp only [extract_status, hraw, List.nil_append, List.singleton_append]
    rw [hneg]
    simp
  · intro bv v hv hb
    subst hb
    simp [extract_status, hv]
  · intro h1
    have hraw : lafValAux d lafStatusFields = none := lafValAux_none d lafStatusFields h1
    simp [looks_active_for_sale, hraw]

/-- C7 witness: a bare listing dict with ordinary card text is classified
    active by default. -/
theorem c7_witness :
    (extract_status [(kstr "price", PVal.num 700000)] (kstr "3 beds, 2 baths, 1,500 sqft")).2 = true :=
  (c7_status_default_active [(kstr "price", PVal.num 700000)]
    (kstr "3 beds, 2 baths, 1,500 sqft")).1 (by decide) (by decide)

/-- C8 counterexample: when the price comes from the non-cents `listPrice`
    key but a sibling `priceCents` key happens to hold the same value,
    `_price_from_any` still divides by 100 (6500 instead of the coerced
    650000), refuting "the extracted price equals the coerced value
    undivided" for dollar keys. -/
theorem c8_counterexample_dollar_key_divided :
    price_from_any [(kstr "listPrice", PVal.num 650000), (kstr "priceCents", PVal.num 650000)]
      = .ok (some 6500)
    ∧ ((6500 : ℚ) ≠ 650000) := by
  constructor
  · decide
  · decide

/-- C8 (amended): the division by 100 happens exactly when some cents key
    holds a value equal to the selected raw price value — whichever key the
    raw value came from, and with no magnitude bound (the under-100000 test
    in the source is inert) — and otherwise the coerced value is returned
    undivided; in the map-properties parser a numeric `list_price_cents`
    entry always overrides with value/100. -/
theorem c8_amended_cents_division (d : PyDict) (raw : PVal)
    (hraw : rawPriceSel d = raw) (hnn : raw ≠ PVal.null) :
    (centsEcho d raw = true →
       price_from_any d = (pyFloatP raw).map (fun q => some (q / 100)))
    ∧ (centsEcho d raw = false → price_from_any d = .ok (coerce_float raw))
    ∧ (∀ (it : PyDict) (q : ℚ), getP it (kstr "list_price_cents") = some (PVal.num q) →
        map_properties_price it = some (q / 100)) := by
  refine ⟨?_, ?_, ?_⟩
  · intro hc
    cases raw with
    | null => exact absurd rfl hnn
    | b bv => simp [price_from_any, hraw, hc]
    | num q => simp [price_from_any, hraw, hc]
    | str s => simp [price_from_any, hraw, hc]
  · intro hc
    cases raw with
    | null => exact absurd rfl hnn
    | b bv => simp [price_from_any, hraw, hc]
    | num q => simp [price_from_any, hraw, hc]
    | str s => simp [price_from_any, hraw, hc]
  · intro it q hq
    simp [map_properties_price, hq]

/-- C8 witness: a pure cents-key object is divided by 100. -/
theorem c8_amended_witness :
    price_from_any [(kstr "priceCents", PVal.num 65000000)]
      = (pyFloatP (PVal.num 65000000)).map (fun q => some (q / 100))
    ∧ (pyFloatP (PVal.num 65000000)).map (fun q => some (q / 100)) = .ok (some 650000) :=
  ⟨(c8_amended_cents_division [(kstr "priceCents", PVal.num 65000000)] (PVal.num 65000000)
      (by decide) (by decide)).1 (by decide), by decide⟩

/-- C9: once a navigation attempt for a target fails, the per-target loop
    performs the HTTP fallback harvest and returns — the trace is exactly
    one goto attempt followed by the HTTP harvest, and in every trace no
    goto ever follows an HTTP harvest. -/
theorem c9_ladder_deescalates (navOk hasNext : Nat → Bool) (n idx : Nat) :
    (navOk idx = false → 0 < n →
       collectTrace navOk hasNext n idx = [FetchAct.goto, FetchAct.httpHarvest])
    ∧ noGotoAfterHttp (collectTrace navOk hasNext n idx) = true := by
  constructor
  · intro hfail hn
    cases n with
    | zero => exact absurd hn (by simp)
    | succ m => simp [collectTrace, hfail]
  · induction n generalizing idx with
    | zero => rfl
    | succ m ih =>
      by_cases hnav : navOk idx = true
      · by_cases hnext : hasNext idx = true
        · simp only [collectTrace, hnav, hnext, if_true]
          exact ih (idx + 1)
        · simp [collectTrace, hnav, hnext, noGotoAfterHttp]
      · simp only [Bool.not_eq_true] at hnav
        simp [collectTrace, hnav, noGotoAfterHttp]

/-- C9 witness: a navigation failure on the first page of a two-page
    budget yields exactly the goto-then-HTTP-harvest trace. -/
theorem c9_witness :
    collectTrace (fun _ => false) (fun _ => false) 2 0 = [FetchAct.goto, FetchAct.httpHarvest]
    ∧ noGotoAfterHttp (collectTrace (fun _ => false) (fun _ => false) 2 0) = true :=
  ⟨(c9_ladder_deescalates (fun _ => false) (fun _ => false) 2 0).1 rfl (by decide),
   (c9_ladder_deescalates (fun _ => false) (fun _ => false) 2 0).2⟩

/-- C10: for every market accepted by `parse_market` and every combination
    of caller arguments, the URL built by `build_search_url` is the base
    path plus exactly the encoded parameter list, and that list always
    contains status=active together with the min_price, min_beds,
    min_sqft, property_type and sort parameters. -/
theorem c10_url_always_requests_active (market st city : List Char)
    (minPrice : Int) (maxPrice : Option Int) (minBeds minSqft : Int)
    (noHoa distressed : Bool) (propertyType sortArg : List Char)
    (h : parse_market market = .ok (st, city)) :
    build_search_url market minPrice maxPrice minBeds minSqft noHoa distressed propertyType sortArg
      = .ok ((kstr "https://www.estately.com/") ++ st ++ ['/'] ++ city ++ ['?']
          ++ urlencodeL (buildSearchParams minPrice maxPrice minBeds minSqft noHoa distressed
              propertyType sortArg))
    ∧ (kstr "status", kstr "active")
        ∈ buildSearchParams minPrice maxPrice minBeds minSqft noHoa distressed propertyType sortArg
    ∧ (kstr "min_price", intDigits minPrice)
        ∈ buildSearchParams minPrice maxPrice minBeds minSqft noHoa distressed propertyType sortArg
    ∧ (kstr "min_beds", intDigits minBeds)
        ∈ buildSearchParams minPrice maxPrice minBeds minSqft noHoa distressed propertyType sortArg
    ∧ (kstr "min_sqft", intDigits minSqft)
        ∈ buildSearchParams minPrice maxPrice minBeds minSqft noHoa distressed propertyType sortArg
    ∧ (kstr "property_type", propertyType)
        ∈ buildSearchParams minPrice maxPrice minBeds minSqft noHoa distressed propertyType sortArg
    ∧ (kstr "sort", sortArg)
        ∈ buildSearchParams minPrice maxPrice minBeds minSqft noHoa distressed propertyType sortArg := by
  refine ⟨?_, ?_, ?_, ?_, ?_, ?_, ?_⟩
  · simp [build_search_url, h]
  all_goals simp [buildSearchParams]

/-- C10 witness: the Phoenix market with default arguments. -/
theorem c10_witness :
    (kstr "status", kstr "active")
      ∈ buildSearchParams 600000 none 3 1000 true true (kstr "house") (kstr "newest")
    ∧ build_search_url (kstr "Phoenix, AZ") 600000 none 3 1000 true true (kstr "house") (kstr "newest")
      = .ok ((kstr "https://www.estately.com/") ++ (kstr "az") ++ ['/'] ++ (kstr "phoenix") ++ ['?']
          ++ urlencodeL (buildSearchParams 600000 none 3 1000 true true (kstr "house") (kstr "newest"))) :=
  ⟨(c10_url_always_requests_active (kstr "Phoenix, AZ") (kstr "az") (kstr "phoenix")
      600000 none 3 1000 true true (kstr "house") (kstr "newest") (by decide)).2.1,
   (c10_url_always_requests_active (kstr "Phoenix, AZ") (kstr "az") (kstr "phoenix")
      600000 none 3 1000 true true (kstr "house") (kstr "newest") (by decide)).1⟩
